import Mathlib

/-!
Shallow embedding of the document-reranking logic of the n8n Ollama Reranker
custom nodes: the shared pipeline `reranker-logic.ts` (including its
vl-classifier-enabled variant) and the provider object returned by
`OllamaReranker.node.ts`, plus the per-item entry of the workflow node.

Modelling conventions:
- JavaScript numbers are modelled as rationals (`ℚ`); the properties at stake
  are order comparisons and exact arithmetic on decimal constants.
- JavaScript strings are `String` / `List Char`; regular-expression matching is
  implemented directly with leftmost-match semantics.
- Documents are objects with a fixed field set; optional JS fields
  (`_originalScore`, `_rerankScore`, `_originalIndex`, `_complexityClass`,
  `_complexityConfidence`) become `Option` fields.
- HTTP backends are oracles passed in explicitly: the per-attempt outcome of
  the generate endpoint, the result list of the custom rerank endpoint, the
  per-document outcome of the classify endpoint and the status probe's
  `has_reranker` bit.
- Concurrency is serialised: `Promise.all` preserves the order of its argument
  list and the batch loop of `rerankDocuments` awaits whole waves in index
  order, so the accumulated score-result list is ordered by document index
  regardless of the batch size.
- `Array.prototype.sort` is stable (ECMAScript requirement); a comparator
  `(a, b) => b.score - a.score` therefore acts as a stable descending sort,
  modelled by insertion sort that inserts an element before the first element
  whose score it reaches (`List.insertionSort` with the reflexive descending
  relation).
-/

namespace Reranker

/-- Complexity label of the VL classifier (strings "LOW"/"HIGH" in the wire format). -/
inductive Complexity where
  | LOW
  | HIGH
deriving DecidableEq, Repr, Inhabited

/-- Document object flowing through the pipeline.  The underscore-prefixed JS
fields are modelled as `Option`-valued fields without the underscore. -/
structure Doc where
  pageContent : String
  metadata : List (String × String) := []
  originalScore : Option ℚ := none
  rerankScore : Option ℚ := none
  originalIndex : Option Nat := none
  complexityClass : Option Complexity := none
  complexityConfidence : Option ℚ := none
deriving DecidableEq, Repr, Inhabited

/-- Ephemeral per-document scoring record of the generate path. -/
structure ScoreResult where
  index : Nat
  score : ℚ
deriving DecidableEq, Repr, Inhabited

/-- One entry of the custom rerank endpoint's `results` array. -/
structure CustomResult where
  index : Nat
  relevance_score : ℚ
deriving DecidableEq, Repr, Inhabited

/-- API type selected in `RerankConfig` (`'ollama' | 'custom' | 'vl-classifier'`). -/
inductive ApiType where
  | ollama
  | custom
  | vlClassifier
deriving DecidableEq, Repr, Inhabited

/-- Classification strategy (`'filter' | 'metadata' | 'both'`). -/
inductive Strategy where
  | filter
  | metadata
  | both
deriving DecidableEq, Repr, Inhabited

/-- The `filterComplexity` option: a concrete complexity or `'both'`. -/
inductive FilterComplexity where
  | only : Complexity → FilterComplexity
  | both
deriving DecidableEq, Repr, Inhabited

/-- `RerankConfig` of `reranker-logic.ts`, restricted to the fields that
influence the result (host, instruction, batch size and timeout only shape the
HTTP transport, which the backend oracle abstracts). -/
structure RerankConfig where
  model : String
  topK : Nat
  threshold : ℚ
  includeOriginalScores : Bool
  apiType : ApiType
  enableClassification : Bool := false
  classificationStrategy : Strategy := Strategy.metadata
  filterComplexity : FilterComplexity := FilterComplexity.both
deriving Repr

/-- Response object of the generate endpoint; `response` is its textual field
(`none` models an absent/undefined field). -/
structure GenResponse where
  response : Option String := none
deriving DecidableEq, Repr, Inhabited

/-- Error object thrown by the HTTP helper, reduced to the fields the retry
logic inspects (`error?.response?.statusCode`, `error?.name === 'AbortError'`,
`error?.code === 'ETIMEDOUT'`, `error?.response?.body`). -/
structure HttpFailure where
  statusCode : Option Nat := none
  isAbort : Bool := false
  isTimedOut : Bool := false
  hasBody : Bool := false
deriving DecidableEq, Repr, Inhabited

/-- Outcome of one HTTP attempt against the generate endpoint. -/
inductive Attempt where
  | ok : GenResponse → Attempt
  | fail : HttpFailure → Attempt
deriving DecidableEq, Repr, Inhabited

/-- Response of the classify endpoint, reduced to the fields read by
`classifyDocumentComplexity`. -/
structure ClassifyResponse where
  complexity : Option Complexity := none
  classification : Option Complexity := none
  confidence : Option ℚ := none
  processing_time : Option ℚ := none
  model : Option String := none
deriving DecidableEq, Repr, Inhabited

/-- Outcome of one HTTP call against the classify endpoint. -/
inductive ClassifyOutcome where
  | ok : ClassifyResponse → ClassifyOutcome
  | err : HttpFailure → ClassifyOutcome
deriving DecidableEq, Repr, Inhabited

/-- `VLClassificationResult` of the vl-classifier variant. -/
structure VLClassificationResult where
  complexity : Complexity
  confidence : Option ℚ := none
  processingTime : Option ℚ := none
  modelUsed : Option String := none
deriving DecidableEq, Repr, Inhabited

/-- Backend oracle bundle: everything the network can answer during one
`rerankDocuments` call.  `generateScore i` is the score `scoreDocument`
resolves to for document `i` on the generate path (the success case);
`customResults` is the `results` array of the custom rerank response;
`classifyOutcome i` is the outcome of the classify call for document `i`;
`hasReranker` is the `has_reranker` bit of the status probe. -/
structure Backend where
  generateScore : Nat → ℚ := fun _ => 0
  customResults : List CustomResult := []
  classifyOutcome : Nat → ClassifyOutcome := fun _ => ClassifyOutcome.err {}
  hasReranker : Bool := false

/-! ### String machinery: lowercasing, substring search, numeric extraction -/

/-- `String.prototype.toLowerCase` on a character list. -/
def lowerStr (s : List Char) : List Char := s.map Char.toLower

/-- `String.prototype.includes(needle)`. -/
def containsSub (needle : List Char) : List Char → Bool
  | [] => needle.isEmpty
  | c :: rest => needle.isPrefixOf (c :: rest) || containsSub needle rest

/-- Maximal leading run of decimal digits, with the remainder. -/
def takeDigits : List Char → List Char × List Char
  | [] => ([], [])
  | c :: rest =>
    if c.isDigit then
      let p := takeDigits rest
      (c :: p.1, p.2)
    else ([], c :: rest)

/-- Numeric value of a digit run (most significant first). -/
def digitsVal (ds : List Char) : Nat :=
  ds.foldl (fun acc c => acc * 10 + (c.toNat - 48)) 0

/-- Value of a fractional digit run. -/
def fracVal (ds : List Char) : ℚ :=
  (digitsVal ds : ℚ) / (10 : ℚ) ^ ds.length

/-- Match of the regex `\d*\.?\d+` anchored at the head of `s`, already parsed
by `parseFloat`: a greedy digit run, then a dot followed by a non-empty digit
run if present, otherwise the integer part alone (backtracking drops a
trailing bare dot). -/
def matchNumAt (s : List Char) : Option ℚ :=
  let p := takeDigits s
  match p.2 with
  | '.' :: rest2 =>
    let q := takeDigits rest2
    if q.1.isEmpty then
      if p.1.isEmpty then none else some (digitsVal p.1 : ℚ)
    else
      some ((digitsVal p.1 : ℚ) + fracVal q.1)
  | _ => if p.1.isEmpty then none else some (digitsVal p.1 : ℚ)

/-- First (leftmost) match of `\d*\.?\d+` in `s`, as a rational; models
`parseFloat(scoreRegex.exec(output)[1])`. -/
def extractFirstNumber : List Char → Option ℚ
  | [] => none
  | c :: rest =>
    match matchNumAt (c :: rest) with
    | some q => some q
    | none => extractFirstNumber rest

/-- JS `\w` word character. -/
def isWordChar (c : Char) : Bool := c.isAlphanum || c == '_'

/-- Whole word `w` anchored at the head of `s` with a trailing `\b`. -/
def matchWordAt (w : List Char) (s : List Char) : Option (List Char) :=
  if w.isPrefixOf s then
    match s.drop w.length with
    | [] => some w
    | c :: _ => if isWordChar c then none else some w
  else none

/-- Maximal leading whitespace run, with the remainder. -/
def takeSpaces : List Char → List Char × List Char
  | [] => ([], [])
  | c :: rest =>
    if c.isWhitespace then
      let p := takeSpaces rest
      (c :: p.1, p.2)
    else ([], c :: rest)

/-- Alternatives of the Qwen marker regexes: a plain word, or the compound
`not\s+relevant` alternative. -/
inductive QPat where
  | word : List Char → QPat
  | notRel
deriving DecidableEq, Repr

/-- One alternative anchored at the head of `s` (trailing `\b` included),
returning the matched text. -/
def matchPatAt : QPat → List Char → Option (List Char)
  | QPat.word w, s => matchWordAt w s
  | QPat.notRel, s =>
    if "not".data.isPrefixOf s then
      let rest := s.drop 3
      let sp := takeSpaces rest
      if sp.1.isEmpty then none
      else
        match matchWordAt "relevant".data sp.2 with
        | some _ => some ("not".data ++ sp.1 ++ "relevant".data)
        | none => none
    else none

/-- Leftmost match of `\b(alt₁|alt₂|…)\b`: scan positions left to right,
keeping track of whether the previous character is a word character (every
alternative starts with a word character, so a word boundary at the position
is exactly `¬prevIsWord`); at each admissible position try the alternatives in
order.  Returns the matched text. -/
def findPat (alts : List QPat) : List Char → Bool → Option (List Char)
  | [], _ => none
  | c :: rest, prevIsWord =>
    match (if prevIsWord then none else alts.findSome? (fun p => matchPatAt p (c :: rest))) with
    | some m => some m
    | none => findPat alts rest (isWordChar c)

/-- Global non-overlapping count of `(w₁|w₂|…)` occurrences, as
`string.match(/…/g).length`: scan left to right, on a match skip past it.
Fuelled by the string length (each step consumes at least one character), so
the definition stays structurally recursive. -/
def countAltAux (alts : List (List Char)) : Nat → List Char → Nat
  | 0, _ => 0
  | _ + 1, [] => 0
  | fuel + 1, c :: rest =>
    match alts.findSome? (fun w => if w.isPrefixOf (c :: rest) then some w else none) with
    | some w => 1 + countAltAux alts fuel (rest.drop (w.length - 1))
    | none => countAltAux alts fuel rest

/-- Entry point of the fuelled counter. -/
def countAlt (alts : List (List Char)) (s : List Char) : Nat :=
  countAltAux alts s.length s

/-- `String.prototype.indexOf(needle)`; `-1` when absent. -/
def indexOfSub (needle : List Char) : List Char → Int
  | [] => if needle.isEmpty then 0 else -1
  | c :: rest =>
    if needle.isPrefixOf (c :: rest) then 0
    else
      let i := indexOfSub needle rest
      if i < 0 then -1 else i + 1

/-! ### Response parsers (`parseBGEScore`, `parseQwenScore`, `parseGenericScore`,
`parseRerankerResponse`) -/

/-- `parseBGEScore(output, outputLower)` of `reranker-logic.ts`. -/
def parseBGEScore (output outputLower : List Char) : Option ℚ :=
  match extractFirstNumber output with
  | some score =>
    if 1 < score ∧ score ≤ 10 then some (score / 10)
    else if 10 < score then some (score / 100)
    else some (min (max score 0) 1)
  | none =>
    if containsSub "high".data outputLower || containsSub "relevant".data outputLower then
      some (8/10)
    else if containsSub "low".data outputLower || containsSub "irrelevant".data outputLower then
      some (2/10)
    else none

/-- Alternatives of `/\b(yes|relevant|positive|match)\b/`. -/
def qwenPositiveAlts : List QPat :=
  [QPat.word "yes".data, QPat.word "relevant".data, QPat.word "positive".data,
    QPat.word "match".data]

/-- Alternatives of `/\b(no|irrelevant|negative|not\s+relevant)\b/`. -/
def qwenNegativeAlts : List QPat :=
  [QPat.word "no".data, QPat.word "irrelevant".data, QPat.word "negative".data, QPat.notRel]

/-- `parseQwenScore(output, outputLower)` of `reranker-logic.ts`. -/
def parseQwenScore (output outputLower : List Char) : Option ℚ :=
  let yesMatch := findPat qwenPositiveAlts outputLower false
  let noMatch := findPat qwenNegativeAlts outputLower false
  match yesMatch, noMatch with
  | some _, none =>
    let hasReasoning := decide (100 < output.length)
    let hasMultiplePositives :=
      decide (1 < countAlt ["relevant".data, "yes".data, "match".data] outputLower)
    if hasReasoning && hasMultiplePositives then some (95/100)
    else if hasReasoning then some (85/100)
    else some (75/100)
  | none, some _ =>
    let hasStrongNegative := containsSub "completely".data outputLower ||
      containsSub "totally".data outputLower || containsSub "not at all".data outputLower
    if hasStrongNegative then some (5/100) else some (15/100)
  | some ym, some nm =>
    if indexOfSub ym outputLower < indexOfSub nm outputLower then some (6/10) else some (4/10)
  | none, none => none

/-- The positive keyword list of the generic parser. -/
def positiveKeywords : List (List Char) :=
  ["relevant".data, "yes".data, "high".data, "strong".data, "good".data, "match".data,
    "related".data]

/-- The negative keyword list of the generic parser. -/
def negativeKeywords : List (List Char) :=
  ["irrelevant".data, "no".data, "low".data, "weak".data, "poor".data, "unrelated".data,
    "different".data]

/-- Keyword-based scoring section of `parseGenericScore` (reached when no
numeric branch returns). -/
def genericKeywordFallback (outputLower : List Char) : ℚ :=
  let positiveCount := (positiveKeywords.filter (fun kw => containsSub kw outputLower)).length
  let negativeCount := (negativeKeywords.filter (fun kw => containsSub kw outputLower)).length
  if positiveCount > negativeCount then 1/2 + (positiveCount : ℚ) * (1/10)
  else if negativeCount > positiveCount then 1/2 - (negativeCount : ℚ) * (1/10)
  else 1/2

/-- `parseGenericScore(output, outputLower)` of `reranker-logic.ts`. -/
def parseGenericScore (output outputLower : List Char) : ℚ :=
  match extractFirstNumber output with
  | some score =>
    if 0 ≤ score ∧ score ≤ 1 then score
    else if 1 < score ∧ score ≤ 10 then score / 10
    else if 10 < score ∧ score ≤ 100 then score / 100
    else genericKeywordFallback outputLower
  | none => genericKeywordFallback outputLower

/-- `parseRerankerResponse(model, response)` of `reranker-logic.ts`; an absent
or empty `response` field is falsy and yields `0.0`. -/
def parseRerankerResponse (model : String) (resp : GenResponse) : ℚ :=
  match resp.response with
  | none => 0
  | some out =>
    if out.isEmpty then 0
    else
      let output := out.data
      let outputLower := lowerStr output
      let modelLower := lowerStr model.data
      let isBGE := containsSub "bge".data modelLower
      let isQwen := containsSub "qwen".data modelLower
      match (if isBGE then parseBGEScore output outputLower else none) with
      | some score => score
      | none =>
        match (if isQwen then parseQwenScore output outputLower else none) with
        | some score => score
        | none => parseGenericScore output outputLower

/-! ### Scoring client with retry (`scoreDocument`) -/

/-- `maxRetries` of `scoreDocument`. -/
def maxRetries : Nat := 3

/-- Transient-error test of the retry loop: abort, network timeout code, or a
5xx status (`undefined >= 500` is false in JS, modelled by the `none` case). -/
def isTransient (e : HttpFailure) : Bool :=
  e.isAbort || e.isTimedOut ||
    (match e.statusCode with
     | some c => decide (500 ≤ c)
     | none => false)

/-- Which of the three final `throw` sites of `scoreDocument` fires. -/
inductive ErrKind where
  | timeout
  | apiBody
  | generic
deriving DecidableEq, Repr

/-- The `NodeApiError` raised by `scoreDocument` after the loop, reduced to the
data it carries: endpoint, model and the last error. -/
structure ApiError where
  endpoint : String
  model : String
  lastFailure : HttpFailure
  kind : ErrKind
deriving DecidableEq, Repr

/-- Final error construction of `scoreDocument` (the three throw branches). -/
def mkApiError (host model : String) (e : HttpFailure) : ApiError :=
  if e.isAbort || e.isTimedOut then
    { endpoint := host ++ "/api/generate", model := model, lastFailure := e, kind := ErrKind.timeout }
  else if e.hasBody then
    { endpoint := host ++ "/api/generate", model := model, lastFailure := e, kind := ErrKind.apiBody }
  else
    { endpoint := host ++ "/api/generate", model := model, lastFailure := e, kind := ErrKind.generic }

/-- Event trace of one `scoreDocument` call: HTTP attempts and backoff sleeps
(milliseconds). -/
inductive ScoreEvent where
  | httpCall
  | sleep : Nat → ScoreEvent
deriving DecidableEq, Repr

/-- Retry loop of `scoreDocument`, indexed by the number of loop iterations
still allowed (`remaining = maxRetries - attempt`); `oracle attempt` is the
outcome of the HTTP call of that attempt.  Returns the event trace and either
the parsed score or the last error.  The `remaining = 0` base case is
unreachable from `remaining = maxRetries` because the last iteration always
breaks or returns. -/
def scoreFrom (oracle : Nat → Attempt) (model : String) :
    Nat → HttpFailure → List ScoreEvent × Except HttpFailure ℚ
  | 0, lastError => ([], Except.error lastError)
  | remaining + 1, _ =>
    let attempt := maxRetries - (remaining + 1)
    match oracle attempt with
    | Attempt.ok resp => ([ScoreEvent.httpCall], Except.ok (parseRerankerResponse model resp))
    | Attempt.fail e =>
      if e.statusCode = some 404 ∨ e.statusCode = some 400 then
        ([ScoreEvent.httpCall], Except.error e)
      else if attempt < maxRetries - 1 then
        if isTransient e then
          let rest := scoreFrom oracle model remaining e
          (ScoreEvent.httpCall :: ScoreEvent.sleep (100 * 2 ^ attempt) :: rest.1, rest.2)
        else ([ScoreEvent.httpCall], Except.error e)
      else ([ScoreEvent.httpCall], Except.error e)

/-- `scoreDocument` of `reranker-logic.ts`: the retry loop followed by the
final error mapping. -/
def scoreDocument (oracle : Nat → Attempt) (host model : String) :
    List ScoreEvent × Except ApiError ℚ :=
  let r := scoreFrom oracle model maxRetries {}
  (r.1, r.2.mapError (mkApiError host model))

/-! ### Generate path of `rerankDocuments` -/

/-- Score-result accumulation of the batch loop.  `Promise.all` preserves the
order of its argument array and the waves are awaited in order, so the
accumulated list is `[⟨0, s₀⟩, …, ⟨n-1, sₙ₋₁⟩]` for every batch size. -/
def generateResults (docs : List Doc) (scoreOf : Nat → ℚ) : List ScoreResult :=
  (List.range docs.length).map (fun i => { index := i, score := scoreOf i })

/-- Stable descending comparator `(a, b) => b.score - a.score` as a relation. -/
def rdesc (a b : ScoreResult) : Prop := b.score ≤ a.score

instance : DecidableRel rdesc := fun a b => inferInstanceAs (Decidable (b.score ≤ a.score))

/-- Mapping of one filtered score result back to an enriched document
(the object spread plus the `includeOriginalScores` guard). -/
def mapResultToDoc (docs : List Doc) (includeOriginalScores : Bool) (r : ScoreResult) : Doc :=
  let originalDoc := docs.getD r.index default
  let rerankedDoc :=
    { originalDoc with rerankScore := some r.score, originalIndex := some r.index }
  if includeOriginalScores ∧ originalDoc.originalScore ≠ none then
    { rerankedDoc with originalScore := originalDoc.originalScore }
  else rerankedDoc

/-- Generate path of `rerankDocuments`: threshold filter, stable descending
sort, `topK` truncation, map back to documents. -/
def rerankGenerate (docs : List Doc) (scoreOf : Nat → ℚ) (topK : Nat) (threshold : ℚ)
    (includeOriginalScores : Bool) : List Doc :=
  let results := generateResults docs scoreOf
  let filteredResults :=
    (((results.filter (fun r => decide (threshold ≤ r.score))).insertionSort rdesc).take topK)
  filteredResults.map (mapResultToDoc docs includeOriginalScores)

/-! ### Custom rerank path (`rerankWithCustomAPI`) -/

/-- Mapping of one custom-API result entry back to an enriched document. -/
def mapCustomResultToDoc (docs : List Doc) (includeOriginalScores : Bool) (r : CustomResult) : Doc :=
  let originalDoc := docs.getD r.index default
  let rerankedDoc :=
    { originalDoc with rerankScore := some r.relevance_score, originalIndex := some r.index }
  if includeOriginalScores ∧ originalDoc.originalScore ≠ none then
    { rerankedDoc with originalScore := originalDoc.originalScore }
  else rerankedDoc

/-- `rerankWithCustomAPI` after a structurally valid response: client-side
threshold filter and mapping.  There is no client-side `topK` truncation; the
`top_k` hint travels in the request body and enforcement is left to the
backend. -/
def rerankCustom (docs : List Doc) (results : List CustomResult) (threshold : ℚ)
    (includeOriginalScores : Bool) : List Doc :=
  (results.filter (fun r => decide (threshold ≤ r.relevance_score))).map
    (mapCustomResultToDoc docs includeOriginalScores)

/-! ### VL-classifier path (`rerankWithVLClassifier`) -/

/-- `classifyDocumentComplexity`: success reads
`response.complexity || response.classification || 'LOW'`; any error defaults
to `{complexity: 'LOW', confidence: 0}`. -/
def classifyDocumentComplexity : ClassifyOutcome → VLClassificationResult
  | ClassifyOutcome.ok resp =>
    { complexity := ((resp.complexity).orElse (fun _ => resp.classification)).getD Complexity.LOW
      confidence := resp.confidence
      processingTime := resp.processing_time
      modelUsed := some (resp.model.getD "ResNet18-ONNX") }
  | ClassifyOutcome.err _ =>
    { complexity := Complexity.LOW
      confidence := some 0 }

/-- An entry of the classified-documents list (`{doc, index, classification}`). -/
structure ClassifiedDoc where
  doc : Doc
  index : Nat
  classification : VLClassificationResult
deriving DecidableEq, Repr, Inhabited

/-- Step 1 of `rerankWithVLClassifier`: classify every document (one wave). -/
def vlClassify (docs : List Doc) (outcomes : Nat → ClassifyOutcome) : List ClassifiedDoc :=
  (List.range docs.length).map (fun i =>
    { doc := docs.getD i default, index := i,
      classification := classifyDocumentComplexity (outcomes i) })

/-- Step 2: filter by strategy (`filter`/`both` with a concrete
`filterComplexity` keeps only matching documents). -/
def vlFilterDocs (strategy : Strategy) (fc : FilterComplexity)
    (classifiedDocs : List ClassifiedDoc) : List ClassifiedDoc :=
  if strategy = Strategy.filter ∨ strategy = Strategy.both then
    match fc with
    | FilterComplexity.only c =>
      classifiedDocs.filter (fun item => decide (item.classification.complexity = c))
    | FilterComplexity.both => classifiedDocs
  else classifiedDocs

/-- Step 3: enrich survivors with classification metadata under the
`metadata`/`both` strategies. -/
def vlEnrich (strategy : Strategy) (docsToRerank : List ClassifiedDoc) : List Doc :=
  docsToRerank.map (fun item =>
    if strategy = Strategy.metadata ∨ strategy = Strategy.both then
      { item.doc with complexityClass := some item.classification.complexity,
                      complexityConfidence := item.classification.confidence }
    else item.doc)

/-- Synthetic scoring of the no-reranker fallback: `0.8` base for an attached
HIGH complexity class, else `0.2`, plus `0.2 ×` the attached confidence;
`_originalIndex` is read from `classifiedDocs[idx]` (the unfiltered list, as
in the source). -/
def vlSyntheticScore (classifiedDocs : List ClassifiedDoc) (rerankerDocs : List Doc) : List Doc :=
  (List.range rerankerDocs.length).map (fun idx =>
    let doc := rerankerDocs.getD idx default
    let complexityScore : ℚ := if doc.complexityClass = some Complexity.HIGH then 8/10 else 2/10
    let confidenceBoost : ℚ := (doc.complexityConfidence.getD 0) * (2/10)
    { doc with rerankScore := some (complexityScore + confidenceBoost),
               originalIndex := some ((classifiedDocs.getD idx default).index) })

/-- Stable descending comparator on enriched documents
(`(a, b) => b._rerankScore - a._rerankScore`). -/
def rdescDoc (a b : Doc) : Prop := b.rerankScore.getD 0 ≤ a.rerankScore.getD 0

instance : DecidableRel rdescDoc :=
  fun a b => inferInstanceAs (Decidable (b.rerankScore.getD 0 ≤ a.rerankScore.getD 0))

/-- Final pipeline of the no-reranker fallback: threshold filter, stable sort,
`topK` truncation, and deletion of `_originalScore` when
`includeOriginalScores` is false. -/
def vlFinalize (topK : Nat) (threshold : ℚ) (includeOriginalScores : Bool)
    (scoredDocs : List Doc) : List Doc :=
  ((((scoredDocs.filter (fun d => decide (threshold ≤ d.rerankScore.getD 0))).insertionSort
      rdescDoc).take topK)).map (fun doc =>
    if includeOriginalScores = false ∧ doc.originalScore ≠ none then
      { doc with originalScore := none }
    else doc)

/-- `rerankWithVLClassifier`: classify, filter, enrich, then either delegate to
the custom rerank endpoint (when the status probe advertises a reranker) or
fall back to synthetic complexity-based scoring. -/
def rerankVL (cfg : RerankConfig) (b : Backend) (documents : List Doc) : List Doc :=
  let classifiedDocs := vlClassify documents b.classifyOutcome
  let docsToRerank := vlFilterDocs cfg.classificationStrategy cfg.filterComplexity classifiedDocs
  if docsToRerank.isEmpty then []
  else
    let rerankerDocs := vlEnrich cfg.classificationStrategy docsToRerank
    if b.hasReranker then
      rerankCustom rerankerDocs b.customResults cfg.threshold cfg.includeOriginalScores
    else
      vlFinalize cfg.topK cfg.threshold cfg.includeOriginalScores
        (vlSyntheticScore classifiedDocs rerankerDocs)

/-- `rerankDocuments` of `reranker-logic.ts`: dispatch on the API type. -/
def rerankDocuments (cfg : RerankConfig) (b : Backend) (documents : List Doc) : List Doc :=
  if cfg.apiType = ApiType.vlClassifier ∧ cfg.enableClassification then
    rerankVL cfg b documents
  else if cfg.apiType = ApiType.custom then
    rerankCustom documents b.customResults cfg.threshold cfg.includeOriginalScores
  else
    rerankGenerate documents b.generateScore cfg.topK cfg.threshold cfg.includeOriginalScores

/-! ### Provider object of `OllamaReranker.node.ts` and the workflow node -/

/-- Raw document as handed to the provider: an object with optional content
fields, or a bare string.  `stringified` abstracts `JSON.stringify(doc)`. -/
structure ObjDoc where
  pageContent : Option String := none
  text : Option String := none
  content : Option String := none
  document : Option String := none
  metadata : Option (List (String × String)) := none
  originalScore : Option ℚ := none
  stringified : String := ""
deriving DecidableEq, Repr, Inhabited

/-- Raw input document. -/
inductive InputDoc where
  | obj : ObjDoc → InputDoc
  | str : String → InputDoc
deriving DecidableEq, Repr, Inhabited

/-- JS `a || b || … || dflt` over string-valued fields: the first present and
non-empty (truthy) value. -/
def firstTruthy : List (Option String) → String → String
  | [], dflt => dflt
  | some s :: rest, dflt => if s.isEmpty then firstTruthy rest dflt else s
  | none :: rest, dflt => firstTruthy rest dflt

/-- Document normalisation of the provider's `rerank`
(`pageContent || text || content || document || JSON.stringify(doc)`). -/
def processDoc (docIndex : Nat) : InputDoc → Doc
  | InputDoc.obj o =>
    { pageContent := firstTruthy [o.pageContent, o.text, o.content, o.document] o.stringified
      metadata := o.metadata.getD []
      originalIndex := some docIndex
      originalScore := o.originalScore }
  | InputDoc.str s =>
    { pageContent := s
      metadata := []
      originalIndex := some docIndex }

/-- Document normalisation of the workflow node's `execute`
(`pageContent || text || content || JSON.stringify(doc)`; no `document` field). -/
def processDocWorkflow (docIndex : Nat) : InputDoc → Doc
  | InputDoc.obj o =>
    { pageContent := firstTruthy [o.pageContent, o.text, o.content] o.stringified
      metadata := o.metadata.getD []
      originalIndex := some docIndex
      originalScore := o.originalScore }
  | InputDoc.str s =>
    { pageContent := s
      metadata := []
      originalIndex := some docIndex }

/-- Errors raised at the node boundary (`NodeOperationError` for validation). -/
inductive NodeError where
  | validation : String → NodeError
  | api : ApiError → NodeError
deriving DecidableEq, Repr

/-- Node parameters captured when the provider is built. -/
structure ProviderParams where
  model : String
  instruction : String
  host : String
  topKParam : Nat
  thresholdParam : ℚ
  includeOriginalScores : Bool
  apiType : ApiType
deriving Inhabited

/-- Argument object of `provider.rerank`. -/
structure RerankInput where
  query : String
  documents : List InputDoc
  topN : Option Nat := none
  threshold : Option ℚ := none

/-- Truthiness of `query?.trim()`: the trimmed string is falsy exactly when
every character of the query is whitespace. -/
def isBlank (s : String) : Bool := s.data.all Char.isWhitespace

/-- `provider.rerank` of `OllamaReranker.node.ts`: parameter resolution with
overrides, `topK` validation and clamping, query validation, empty-set
short-circuit, document normalisation, then dispatch to `rerankDocuments`.
The second component records whether `rerankDocuments` was invoked — every
backend HTTP request of the call is issued inside `rerankDocuments`, so
`false` means zero backend HTTP calls. -/
def providerRerank (p : ProviderParams) (b : Backend) (input : RerankInput) :
    Except NodeError (List Doc) × Bool :=
  let topK0 := input.topN.getD p.topKParam
  let threshold := input.threshold.getD p.thresholdParam
  if topK0 < 1 then (Except.error (NodeError.validation "topN/topK must be at least 1"), false)
  else
    let topK := if topK0 > 100 then 100 else topK0
    if isBlank input.query then
      (Except.error (NodeError.validation "Query cannot be empty"), false)
    else if input.documents.isEmpty then (Except.ok [], false)
    else
      let processedDocs := (List.range input.documents.length).map
        (fun i => processDoc i (input.documents.getD i default))
      (Except.ok (rerankDocuments
        { model := p.model, topK := topK, threshold := threshold,
          includeOriginalScores := p.includeOriginalScores, apiType := p.apiType }
        b processedDocs), true)

/-- Removal of the helper fields in `provider.compressDocuments`
(`const \x7b _rerankScore, _originalIndex, ...cleanDoc \x7d = doc`). -/
def stripHelperFields (doc : Doc) : Doc :=
  { doc with rerankScore := none, originalIndex := none }

/-- `provider.compressDocuments`: delegate to `provider.rerank` with the
node's threshold, then strip the helper fields from each returned document. -/
def providerCompressDocuments (p : ProviderParams) (b : Backend) (documents : List InputDoc)
    (query : String) (topN : Option Nat) : Except NodeError (List Doc) × Bool :=
  let r := providerRerank p b
    { query := query, documents := documents, topN := topN, threshold := some p.thresholdParam }
  (r.1.map (fun ranked => ranked.map stripHelperFields), r.2)

/-- Per-item body of the workflow node's `execute`: the query check precedes
document resolution and dispatch, the empty document set short-circuits, then
`rerankDocuments` runs on the normalised documents.  The second component
records whether `rerankDocuments` was invoked, as in `providerRerank`. -/
def workflowItemRerank (p : ProviderParams) (b : Backend) (query : String)
    (documents : List InputDoc) : Except NodeError (List Doc) × Bool :=
  if isBlank query then (Except.error (NodeError.validation "Query cannot be empty"), false)
  else if documents.isEmpty then (Except.ok [], false)
  else
    let processedDocs := (List.range documents.length).map
      (fun i => processDocWorkflow i (documents.getD i default))
    (Except.ok (rerankDocuments
      { model := p.model, topK := p.topKParam, threshold := p.thresholdParam,
        includeOriginalScores := p.includeOriginalScores, apiType := p.apiType }
      b processedDocs), true)


/-! ### Concrete instances used in closed evaluations -/

/-- Custom-path request with `topK = 1`. -/
def cfgCustomTop1 : RerankConfig :=
  { model := "m", topK := 1, threshold := 0, includeOriginalScores := false,
    apiType := ApiType.custom }

/-- Backend whose custom rerank endpoint returns two results above threshold. -/
def backendTwoResults : Backend :=
  { customResults := [{ index := 0, relevance_score := 9 },
      { index := 1, relevance_score := 8 }] }

/-- Backend whose custom rerank endpoint returns a single result. -/
def backendOneResult : Backend :=
  { customResults := [{ index := 0, relevance_score := 9 }] }

/-- Two plain documents. -/
def twoDocs : List Doc := [{ pageContent := "a" }, { pageContent := "b" }]

/-- VL-classifier request with `topK = 1` against a backend without reranker
capability (the fallback path). -/
def cfgC1VL : RerankConfig :=
  { model := "m", topK := 1, threshold := 0, includeOriginalScores := false,
    apiType := ApiType.vlClassifier, enableClassification := true }

/-- Generate-path request with `includeOriginalScores = false`. -/
def cfgGenNoOrig : RerankConfig :=
  { model := "m", topK := 10, threshold := 0, includeOriginalScores := false,
    apiType := ApiType.ollama }

/-- Backend scoring every document at `9`. -/
def backendScore9 : Backend := { generateScore := fun _ => 9 }

/-- Document carrying a pre-existing `_originalScore`. -/
def docWithOriginalScore : Doc := { pageContent := "doc", originalScore := some 5 }

/-- VL-classifier request under the `filter` strategy keeping HIGH documents. -/
def cfgVLFilterHigh : RerankConfig :=
  { model := "m", topK := 10, threshold := 0, includeOriginalScores := false,
    apiType := ApiType.vlClassifier, enableClassification := true,
    classificationStrategy := Strategy.filter,
    filterComplexity := FilterComplexity.only Complexity.HIGH }

/-- The same request under the `metadata` strategy. -/
def cfgVLMetadata : RerankConfig :=
  { cfgVLFilterHigh with classificationStrategy := Strategy.metadata }

/-- Backend without reranker capability, classifying everything HIGH with
confidence `1`. -/
def backendClassifyHigh : Backend :=
  { classifyOutcome := fun _ =>
      ClassifyOutcome.ok { complexity := some Complexity.HIGH, confidence := some 1 } }

/-- A single plain document. -/
def oneDoc : List Doc := [{ pageContent := "doc" }]


/-- Enriched document produced by the vl-classifier fallback under the
`metadata` strategy for `oneDoc` and `backendClassifyHigh`. -/
def vlMetadataOutputDoc : Doc :=
  { pageContent := "doc", rerankScore := some 1, originalIndex := some 0,
    complexityClass := some Complexity.HIGH, complexityConfidence := some 1 }

/-- Provider parameters used to exercise the query validation. -/
def providerParamsC9 : ProviderParams :=
  { model := "m", instruction := "i", host := "h", topKParam := 10, thresholdParam := 0,
    includeOriginalScores := false, apiType := ApiType.ollama }

/-- Provider parameters used to exercise `compressDocuments`. -/
def providerParamsC10 : ProviderParams :=
  { model := "m", instruction := "i", host := "h", topKParam := 10, thresholdParam := 0,
    includeOriginalScores := false, apiType := ApiType.ollama }

/-! ## Theorems -/

/-! ### Length bounds of the pipeline stages -/

theorem rerankCustom_length_le (docs : List Doc) (results : List CustomResult) (threshold : ℚ)
    (inc : Bool) : (rerankCustom docs results threshold inc).length ≤ results.length := by
  unfold rerankCustom
  rw [List.length_map]
  exact List.length_filter_le _ _

theorem rerankGenerate_length_le (docs : List Doc) (scoreOf : Nat → ℚ) (topK : Nat)
    (threshold : ℚ) (inc : Bool) :
    (rerankGenerate docs scoreOf topK threshold inc).length ≤ topK := by
  unfold rerankGenerate
  rw [List.length_map, List.length_take]
  exact min_le_left _ _

theorem vlFinalize_length_le (topK : Nat) (threshold : ℚ) (inc : Bool) (scored : List Doc) :
    (vlFinalize topK threshold inc scored).length ≤ topK := by
  unfold vlFinalize
  rw [List.length_map, List.length_take]
  exact min_le_left _ _

theorem rerankVL_length_le (cfg : RerankConfig) (b : Backend) (docs : List Doc)
    (hlen : b.customResults.length ≤ cfg.topK) :
    (rerankVL cfg b docs).length ≤ cfg.topK := by
  simp only [rerankVL]
  split
  · simp
  · split
    · exact le_trans (rerankCustom_length_le _ _ _ _) hlen
    · exact vlFinalize_length_le _ _ _ _

/-- C1 (amended): the generate path returns at most `topK` documents
unconditionally; the vl-classifier path against a backend without reranker
capability (the fallback) does so as well, for every strategy; the
custom/direct path (and the vl-classifier path when the backend advertises a
reranker) performs no client-side truncation and returns one document per
above-threshold entry of the backend response, so its output stays within
`topK` whenever the backend returns at most `topK` results. -/
theorem c1_topK_bound :
    (∀ cfg b docs, cfg.apiType = ApiType.ollama →
      (rerankDocuments cfg b docs).length ≤ cfg.topK) ∧
    (∀ cfg b docs, cfg.apiType = ApiType.vlClassifier → b.hasReranker = false →
      (rerankDocuments cfg b docs).length ≤ cfg.topK) ∧
    (∀ cfg b docs, b.customResults.length ≤ cfg.topK →
      (rerankDocuments cfg b docs).length ≤ cfg.topK) := by
  refine ⟨?_, ?_, ?_⟩
  · intro cfg b docs hapi
    unfold rerankDocuments
    rw [hapi]
    simp only [reduceCtorEq, false_and, if_false]
    exact rerankGenerate_length_le _ _ _ _ _
  · intro cfg b docs hapi hrk
    unfold rerankDocuments
    split
    · simp only [rerankVL]
      rw [hrk]
      split
      · simp
      · rw [if_neg (by simp)]
        exact vlFinalize_length_le _ _ _ _
    · split
      · rename_i hc
        rw [hapi] at hc
        simp at hc
      · exact rerankGenerate_length_le _ _ _ _ _
  · intro cfg b docs hlen
    unfold rerankDocuments
    split
    · exact rerankVL_length_le cfg b docs hlen
    · split
      · exact le_trans (rerankCustom_length_le _ _ _ _) hlen
      · exact rerankGenerate_length_le _ _ _ _ _

/-- C1 counterexample: on the custom/direct path with `topK = 1`, a backend
response holding two above-threshold results produces an output of length 2. -/
theorem c1_counterexample :
    ¬ ((rerankDocuments cfgCustomTop1 backendTwoResults twoDocs).length ≤ cfgCustomTop1.topK) := by
  decide

/-- C1 witness: the amended bound evaluated on the vl-classifier fallback path
with `topK = 1`, and on the custom path at a backend returning a single
result. -/
theorem c1_topK_bound_witness :
    (rerankDocuments cfgC1VL {} twoDocs).length ≤ cfgC1VL.topK ∧
    backendOneResult.customResults.length ≤ cfgCustomTop1.topK ∧
    (rerankDocuments cfgCustomTop1 backendOneResult twoDocs).length ≤ cfgCustomTop1.topK :=
  ⟨c1_topK_bound.2.1 cfgC1VL {} twoDocs rfl rfl,
   by decide,
   c1_topK_bound.2.2 cfgCustomTop1 backendOneResult twoDocs (by decide)⟩

/-- C2 (evaluation of the code at the failing input): with
`includeOriginalScores = false`, a document carrying `_originalScore = 0.5`
comes back from the generate path still carrying `_originalScore = 0.5` — the
object spread copies the field and the `includeOriginalScores` guard only
re-assigns it, so it is never stripped. -/
theorem c2_originalScore_not_stripped :
    (rerankDocuments cfgGenNoOrig backendScore9 [docWithOriginalScore]).map
      (fun d => d.originalScore) = [some 5] ∧
    cfgGenNoOrig.includeOriginalScores = false := by
  decide

/-! ### Bounds of the response parsers -/

theorem fracVal_nonneg (ds : List Char) : 0 ≤ fracVal ds := by
  unfold fracVal
  positivity

theorem matchNumAt_nonneg (s : List Char) (q : ℚ) (h : matchNumAt s = some q) : 0 ≤ q := by
  simp only [matchNumAt] at h
  split at h
  · split_ifs at h with h1 h2
    · injection h with h
      subst h
      exact Nat.cast_nonneg _
    · injection h with h
      subst h
      exact add_nonneg (Nat.cast_nonneg _) (fracVal_nonneg _)
  · split_ifs at h with h1
    injection h with h
    subst h
    exact Nat.cast_nonneg _

theorem extractFirstNumber_nonneg : ∀ s q, extractFirstNumber s = some q → 0 ≤ q := by
  intro s
  induction s with
  | nil => intro q h; simp [extractFirstNumber] at h
  | cons c rest ih =>
    intro q h
    unfold extractFirstNumber at h
    split at h
    · rename_i q' hq'
      injection h with h
      subst h
      exact matchNumAt_nonneg _ _ hq'
    · exact ih q h

theorem genericKeywordFallback_bounds (lower : List Char) :
    -(1/5 : ℚ) ≤ genericKeywordFallback lower ∧ genericKeywordFallback lower ≤ 6/5 := by
  have hp : ((positiveKeywords.filter (fun kw => containsSub kw lower)).length : ℚ) ≤ 7 := by
    have h := List.length_filter_le (fun kw => containsSub kw lower) positiveKeywords
    have h7 : positiveKeywords.length = 7 := by simp [positiveKeywords]
    exact_mod_cast h7 ▸ h
  have hn : ((negativeKeywords.filter (fun kw => containsSub kw lower)).length : ℚ) ≤ 7 := by
    have h := List.length_filter_le (fun kw => containsSub kw lower) negativeKeywords
    have h7 : negativeKeywords.length = 7 := by simp [negativeKeywords]
    exact_mod_cast h7 ▸ h
  have hp0 : (0:ℚ) ≤ ((positiveKeywords.filter (fun kw => containsSub kw lower)).length : ℚ) :=
    Nat.cast_nonneg _
  have hn0 : (0:ℚ) ≤ ((negativeKeywords.filter (fun kw => containsSub kw lower)).length : ℚ) :=
    Nat.cast_nonneg _
  simp only [genericKeywordFallback]
  split_ifs with h1 h2
  · constructor <;> nlinarith
  · constructor <;> nlinarith
  · norm_num

/-- C3 (amended): the BGE numeric branch divides by 10 or 100 without a final
clamp, so it stays inside the unit interval exactly when the extracted token
is at most 100 (the clamp only acts in the `≤ 1` branch, where it is a no-op);
the generic parser always lands in `[-1/5, 6/5]` — its numeric branches stay
inside the unit interval but the keyword fallback `0.5 ± 0.1 × count` can
reach `1.2` or `-0.2` since a deciding count can reach 7. -/
theorem c3_parser_range :
    (∀ out lower q, extractFirstNumber out = some q → q ≤ 100 →
      ∃ v, parseBGEScore out lower = some v ∧ 0 ≤ v ∧ v ≤ 1) ∧
    (∀ out lower, -(1/5 : ℚ) ≤ parseGenericScore out lower ∧
      parseGenericScore out lower ≤ 6/5) := by
  constructor
  · intro out lower q hq h100
    have hq0 : 0 ≤ q := extractFirstNumber_nonneg out q hq
    unfold parseBGEScore
    split
    · rename_i score hscore
      rw [hq] at hscore
      injection hscore with hscore
      subst hscore
      split_ifs with h1 h2
      · exact ⟨q/10, rfl, by linarith [h1.1], by linarith [h1.2]⟩
      · exact ⟨q/100, rfl, by linarith, by linarith⟩
      · exact ⟨min (max q 0) 1, rfl, le_min (le_max_right _ _) (by norm_num),
          min_le_right _ _⟩
    · rename_i hnone
      rw [hq] at hnone
      exact absurd hnone (by simp)
  · intro out lower
    unfold parseGenericScore
    split
    · rename_i q hq
      have hq0 : 0 ≤ q := extractFirstNumber_nonneg out q hq
      split_ifs with h1 h2 h3
      · exact ⟨by linarith [h1.1], by linarith [h1.2]⟩
      · exact ⟨by linarith [h2.1], by linarith [h2.2]⟩
      · exact ⟨by linarith [h3.1], by linarith [h3.2]⟩
      · exact genericKeywordFallback_bounds lower
    · exact genericKeywordFallback_bounds lower

/-- C3 counterexample: the parser leaves the unit interval — for a BGE
identifier the output `"Relevance: 1500"` parses to `15` (divided by 100,
never clamped), and for a generic identifier seven positive keywords drive
the fallback to `1.2`. -/
theorem c3_counterexample :
    (1:ℚ) < parseRerankerResponse "bge-reranker-v2-m3" { response := some "Relevance: 1500" } ∧
    (1:ℚ) < parseRerankerResponse "test-model"
      { response := some "relevant yes high strong good match related" } := by
  have h1 : parseRerankerResponse "bge-reranker-v2-m3" { response := some "Relevance: 1500" } =
      ((1500 : ℕ) : ℚ) / 100 := by rfl
  have h2 : parseRerankerResponse "test-model"
      { response := some "relevant yes high strong good match related" } =
      1/2 + ((7 : ℕ) : ℚ) * (1/10) := by rfl
  rw [h1, h2]
  constructor <;> norm_num

/-- C3 witness: the amended bounds evaluated at the output `"5"` (token `5`,
rescaled to `0.5`) and at a keyword-free output. -/
theorem c3_parser_range_witness :
    (∃ v, parseBGEScore "5".data "5".data = some v ∧ 0 ≤ v ∧ v ≤ 1) ∧
    (-(1/5 : ℚ) ≤ parseGenericScore "hello".data "hello".data ∧
      parseGenericScore "hello".data "hello".data ≤ 6/5) :=
  ⟨c3_parser_range.1 "5".data "5".data ((5 : ℕ) : ℚ) (by rfl) (by norm_num),
   c3_parser_range.2 "hello".data "hello".data⟩

/-! ### Retry policy of the scoring client -/

/-- C5: a 400/404 on the first attempt stops the loop after exactly one HTTP
call with no sleep and surfaces the error; three transient failures produce
exactly three HTTP calls with backoff sleeps of `100·2^0` and `100·2^1`
milliseconds and raise the final error; and the raised error always carries
the endpoint, the model and the last failure. -/
theorem c5_retry_policy :
    (∀ host model oracle e, oracle 0 = Attempt.fail e →
      (e.statusCode = some 404 ∨ e.statusCode = some 400) →
      scoreDocument oracle host model =
        ([ScoreEvent.httpCall], Except.error (mkApiError host model e))) ∧
    (∀ host model oracle e0 e1 e2,
      oracle 0 = Attempt.fail e0 → oracle 1 = Attempt.fail e1 → oracle 2 = Attempt.fail e2 →
      isTransient e0 = true → isTransient e1 = true →
      ¬ (e0.statusCode = some 404 ∨ e0.statusCode = some 400) →
      ¬ (e1.statusCode = some 404 ∨ e1.statusCode = some 400) →
      ¬ (e2.statusCode = some 404 ∨ e2.statusCode = some 400) →
      scoreDocument oracle host model =
        ([ScoreEvent.httpCall, ScoreEvent.sleep (100 * 2 ^ 0), ScoreEvent.httpCall,
          ScoreEvent.sleep (100 * 2 ^ 1), ScoreEvent.httpCall],
         Except.error (mkApiError host model e2))) ∧
    (∀ host model e, (mkApiError host model e).endpoint = host ++ "/api/generate" ∧
      (mkApiError host model e).model = model ∧ (mkApiError host model e).lastFailure = e) := by
  refine ⟨?_, ?_, ?_⟩
  · intro host model oracle e h0 hperm
    unfold scoreDocument scoreFrom
    simp only [maxRetries]
    norm_num
    rw [h0]
    simp [hperm, Except.mapError]
  · intro host model oracle e0 e1 e2 h0 h1 h2 ht0 ht1 hn0 hn1 hn2
    unfold scoreDocument
    have step2 : scoreFrom oracle model 1 e1 = ([ScoreEvent.httpCall], Except.error e2) := by
      unfold scoreFrom
      simp only [maxRetries]
      norm_num
      rw [h2]
    have step1 : scoreFrom oracle model 2 e0 =
        ([ScoreEvent.httpCall, ScoreEvent.sleep (100 * 2 ^ 1), ScoreEvent.httpCall],
         Except.error e2) := by
      unfold scoreFrom
      simp only [maxRetries]
      norm_num
      rw [h1]
      simp [hn1, ht1, step2]
    have step0 : scoreFrom oracle model maxRetries {} =
        ([ScoreEvent.httpCall, ScoreEvent.sleep (100 * 2 ^ 0), ScoreEvent.httpCall,
          ScoreEvent.sleep (100 * 2 ^ 1), ScoreEvent.httpCall], Except.error e2) := by
      unfold scoreFrom
      simp only [maxRetries]
      norm_num
      rw [h0]
      simp [hn0, ht0, step1]
    rw [step0]
    rfl
  · intro host model e
    unfold mkApiError
    split_ifs <;> exact ⟨rfl, rfl, rfl⟩

/-- C5 witness: a 404 on the first attempt gives exactly one HTTP call. -/
theorem c5_retry_policy_witness :
    scoreDocument (fun _ => Attempt.fail { statusCode := some 404 }) "http://localhost:11434"
      "bge-reranker-v2-m3" =
      ([ScoreEvent.httpCall],
       Except.error (mkApiError "http://localhost:11434" "bge-reranker-v2-m3"
        { statusCode := some 404 })) :=
  c5_retry_policy.1 "http://localhost:11434" "bge-reranker-v2-m3" _ _ rfl (Or.inl rfl)

/-! ### Failure policy of the complexity classifier -/

/-- C6: any classification error yields `complexity = LOW` with confidence `0`
instead of propagating, and under the `metadata` strategy the document list
entering the reranking stage keeps its full length, the failed document
included, carrying `complexityClass = LOW` and `complexityConfidence = 0`. -/
theorem c6_classification_failure_safe :
    (∀ e, classifyDocumentComplexity (ClassifyOutcome.err e) =
      { complexity := Complexity.LOW, confidence := some 0 }) ∧
    (∀ docs outcomes fc i e, i < List.length docs → outcomes i = ClassifyOutcome.err e →
      (vlEnrich Strategy.metadata
          (vlFilterDocs Strategy.metadata fc (vlClassify docs outcomes))).length =
        docs.length ∧
      ((vlEnrich Strategy.metadata
          (vlFilterDocs Strategy.metadata fc (vlClassify docs outcomes))).getD i
            default).complexityClass = some Complexity.LOW ∧
      ((vlEnrich Strategy.metadata
          (vlFilterDocs Strategy.metadata fc (vlClassify docs outcomes))).getD i
            default).complexityConfidence = some 0) := by
  constructor
  · intro e
    rfl
  · intro docs outcomes fc i e hi hout
    have hfd : vlFilterDocs Strategy.metadata fc (vlClassify docs outcomes) =
        vlClassify docs outcomes := by
      unfold vlFilterDocs
      simp
    rw [hfd]
    have hlen : (vlEnrich Strategy.metadata (vlClassify docs outcomes)).length =
        docs.length := by
      simp [vlEnrich, vlClassify]
    have hi2 : i < (vlEnrich Strategy.metadata (vlClassify docs outcomes)).length := by
      rw [hlen]; exact hi
    have hgd : (vlEnrich Strategy.metadata (vlClassify docs outcomes)).getD i default =
        { docs.getD i default with
          complexityClass := some (classifyDocumentComplexity (outcomes i)).complexity
          complexityConfidence := (classifyDocumentComplexity (outcomes i)).confidence } := by
      rw [List.getD_eq_getElem _ _ hi2]
      simp [vlEnrich, vlClassify]
    refine ⟨hlen, ?_, ?_⟩ <;> rw [hgd, hout] <;> rfl

/-- C6 witness: a single document whose classification call fails still enters
the pipeline, labelled LOW with confidence 0. -/
theorem c6_classification_failure_safe_witness :
    (vlEnrich Strategy.metadata (vlFilterDocs Strategy.metadata FilterComplexity.both
      (vlClassify [{ pageContent := "a" }] (fun _ => ClassifyOutcome.err {})))).length = 1 ∧
    ((vlEnrich Strategy.metadata (vlFilterDocs Strategy.metadata FilterComplexity.both
      (vlClassify [{ pageContent := "a" }] (fun _ => ClassifyOutcome.err {})))).getD 0
        default).complexityClass = some Complexity.LOW ∧
    ((vlEnrich Strategy.metadata (vlFilterDocs Strategy.metadata FilterComplexity.both
      (vlClassify [{ pageContent := "a" }] (fun _ => ClassifyOutcome.err {})))).getD 0
        default).complexityConfidence = some 0 :=
  c6_classification_failure_safe.2 [{ pageContent := "a" }] (fun _ => ClassifyOutcome.err {})
    FilterComplexity.both 0 {} (by decide) rfl

/-! ### Stability of the descending sort -/

theorem pairwise_lex_orderedInsert (x : ScoreResult) :
    ∀ l : List ScoreResult,
      l.Pairwise (fun a b => b.score < a.score ∨ (a.score = b.score ∧ a.index < b.index)) →
      (∀ y ∈ l, x.index < y.index) →
      (List.orderedInsert rdesc x l).Pairwise
        (fun a b => b.score < a.score ∨ (a.score = b.score ∧ a.index < b.index)) := by
  intro l
  induction l with
  | nil =>
    intro _ _
    simp [List.orderedInsert]
  | cons b l ih =>
    intro hl hidx
    rw [List.orderedInsert]
    split_ifs with hr
    · have hr2 : b.score ≤ x.score := hr
      refine List.Pairwise.cons ?_ hl
      intro z hz
      rcases List.mem_cons.mp hz with rfl | hz
      · rcases lt_or_eq_of_le hr2 with h | h
        · exact Or.inl h
        · exact Or.inr ⟨h.symm, hidx z (List.mem_cons_self _ _)⟩
      · rcases (List.pairwise_cons.mp hl).1 z hz with h | ⟨h1, _⟩
        · exact Or.inl (lt_of_lt_of_le h hr2)
        · rcases lt_or_eq_of_le (h1 ▸ hr2) with h2 | h2
          · exact Or.inl h2
          · exact Or.inr ⟨h2.symm, hidx z (List.mem_cons_of_mem _ hz)⟩
    · have hr2 : ¬ b.score ≤ x.score := hr
      refine List.Pairwise.cons ?_
        (ih hl.of_cons (fun y hy => hidx y (List.mem_cons_of_mem _ hy)))
      intro z hz
      have hz2 : z = x ∨ z ∈ l := by
        have hmem := (List.perm_orderedInsert rdesc x l).mem_iff.mp hz
        simpa using hmem
      rcases hz2 with rfl | hz2
      · exact Or.inl (not_le.mp hr2)
      · exact (List.pairwise_cons.mp hl).1 z hz2

theorem pairwise_lex_insertionSort :
    ∀ l : List ScoreResult, l.Pairwise (fun a b => a.index < b.index) →
      (List.insertionSort rdesc l).Pairwise
        (fun a b => b.score < a.score ∨ (a.score = b.score ∧ a.index < b.index)) := by
  intro l
  induction l with
  | nil =>
    intro _
    simp [List.insertionSort]
  | cons x l ih =>
    intro h
    rw [List.insertionSort]
    refine pairwise_lex_orderedInsert x _ (ih h.of_cons) ?_
    intro y hy
    have hy2 : y ∈ l := (List.perm_insertionSort rdesc l).mem_iff.mp hy
    exact (List.pairwise_cons.mp h).1 y hy2

theorem mapResultToDoc_rerankScore (docs : List Doc) (inc : Bool) (r : ScoreResult) :
    (mapResultToDoc docs inc r).rerankScore = some r.score := by
  simp only [mapResultToDoc]
  split_ifs <;> rfl

theorem mapResultToDoc_originalIndex (docs : List Doc) (inc : Bool) (r : ScoreResult) :
    (mapResultToDoc docs inc r).originalIndex = some r.index := by
  simp only [mapResultToDoc]
  split_ifs <;> rfl

theorem mapCustomResultToDoc_rerankScore (docs : List Doc) (inc : Bool) (r : CustomResult) :
    (mapCustomResultToDoc docs inc r).rerankScore = some r.relevance_score := by
  simp only [mapCustomResultToDoc]
  split_ifs <;> rfl

/-- C7: the generate path output is sorted by score descending, and two
output documents with the same score keep the relative order of their original
input positions (the stable sort inserts each element in front of its ties, so
earlier input ties stay first). -/
theorem c7_sorted_stable :
    ∀ docs scoreOf topK threshold inc,
      (rerankGenerate docs scoreOf topK threshold inc).Pairwise
        (fun a b => b.rerankScore.getD 0 < a.rerankScore.getD 0 ∨
          (a.rerankScore = b.rerankScore ∧ a.originalIndex.getD 0 < b.originalIndex.getD 0)) := by
  intro docs scoreOf topK threshold inc
  unfold rerankGenerate
  rw [List.pairwise_map]
  have hbase : (generateResults docs scoreOf).Pairwise (fun a b => a.index < b.index) := by
    unfold generateResults
    rw [List.pairwise_map]
    exact List.pairwise_lt_range _
  have hfil := hbase.filter (fun r => decide (threshold ≤ r.score))
  have hsort := pairwise_lex_insertionSort _ hfil
  have htake := hsort.sublist (List.take_sublist topK _)
  refine htake.imp ?_
  intro a b hab
  simpa [mapResultToDoc_rerankScore, mapResultToDoc_originalIndex] using hab

/-- C8: every document returned by the generate path and by the custom/direct
path carries a rerank score at least the threshold (inclusive comparison). -/
theorem c8_threshold_inclusive :
    (∀ docs scoreOf topK threshold inc, docs ≠ [] →
      ∀ d ∈ rerankGenerate docs scoreOf topK threshold inc,
        threshold ≤ d.rerankScore.getD 0) ∧
    (∀ docs results threshold inc, docs ≠ [] →
      ∀ d ∈ rerankCustom docs results threshold inc,
        threshold ≤ d.rerankScore.getD 0) := by
  constructor
  · intro docs scoreOf topK threshold inc _ d hd
    unfold rerankGenerate at hd
    rcases List.mem_map.mp hd with ⟨r, hr, rfl⟩
    have hr2 : r ∈ List.insertionSort rdesc
        ((generateResults docs scoreOf).filter (fun r => decide (threshold ≤ r.score))) :=
      (List.take_sublist _ _).subset hr
    have hr3 := (List.perm_insertionSort rdesc _).mem_iff.mp hr2
    have hr4 := (List.mem_filter.mp hr3).2
    rw [mapResultToDoc_rerankScore]
    simpa using of_decide_eq_true hr4
  · intro docs results threshold inc _ d hd
    unfold rerankCustom at hd
    rcases List.mem_map.mp hd with ⟨r, hr, rfl⟩
    have hr2 := (List.mem_filter.mp hr).2
    rw [mapCustomResultToDoc_rerankScore]
    simpa using of_decide_eq_true hr2

/-- C8 witness: a document scored exactly at the threshold is returned on both
paths, showing the comparison is inclusive. -/
theorem c8_threshold_inclusive_witness :
    (1:ℚ) ≤ (({ pageContent := "a", rerankScore := some 1, originalIndex := some 0 } :
      Doc)).rerankScore.getD 0 ∧
    (1:ℚ) ≤ (({ pageContent := "b", rerankScore := some 1, originalIndex := some 0 } :
      Doc)).rerankScore.getD 0 :=
  ⟨c8_threshold_inclusive.1 [{ pageContent := "a" }] (fun _ => 1) 1 1 false (by decide)
      _ (by decide),
   c8_threshold_inclusive.2 [{ pageContent := "b" }] [{ index := 0, relevance_score := 1 }] 1
      false (by decide) _ (by decide)⟩

/-! ### Synthetic scoring of the vl-classifier fallback -/

theorem vlSyntheticScore_invariant (classified : List ClassifiedDoc)
    (rerankerDocs : List Doc) :
    ∀ d ∈ vlSyntheticScore classified rerankerDocs,
      d.rerankScore = some
        ((if d.complexityClass = some Complexity.HIGH then (8:ℚ)/10 else 2/10) +
          (d.complexityConfidence.getD 0) * (2/10)) ∧
      ∃ d0 ∈ rerankerDocs, d.complexityClass = d0.complexityClass := by
  intro d hd
  unfold vlSyntheticScore at hd
  rcases List.mem_map.mp hd with ⟨idx, hidx, rfl⟩
  have hlt : idx < rerankerDocs.length := List.mem_range.mp hidx
  refine ⟨rfl, rerankerDocs.getD idx default, ?_, rfl⟩
  rw [List.getD_eq_getElem _ _ hlt]
  exact List.getElem_mem hlt

theorem vlEnrich_attaches_class (strategy : Strategy)
    (h : strategy = Strategy.metadata ∨ strategy = Strategy.both)
    (docsToRerank : List ClassifiedDoc) :
    ∀ d ∈ vlEnrich strategy docsToRerank, ∃ c, d.complexityClass = some c := by
  intro d hd
  unfold vlEnrich at hd
  rcases List.mem_map.mp hd with ⟨item, _, rfl⟩
  rw [if_pos h]
  exact ⟨item.classification.complexity, rfl⟩

theorem mem_vlFinalize (topK : Nat) (threshold : ℚ) (inc : Bool) (scored : List Doc) :
    ∀ d ∈ vlFinalize topK threshold inc scored,
      ∃ d0 ∈ scored, d.rerankScore = d0.rerankScore ∧
        d.complexityClass = d0.complexityClass ∧
        d.complexityConfidence = d0.complexityConfidence := by
  intro d hd
  unfold vlFinalize at hd
  rcases List.mem_map.mp hd with ⟨d1, hd1, rfl⟩
  have h2 : d1 ∈ List.insertionSort rdescDoc
      (scored.filter (fun d => decide (threshold ≤ d.rerankScore.getD 0))) :=
    (List.take_sublist _ _).subset hd1
  have h3 := (List.perm_insertionSort rdescDoc _).mem_iff.mp h2
  have h4 := (List.mem_filter.mp h3).1
  refine ⟨d1, h4, ?_⟩
  split_ifs <;> exact ⟨rfl, rfl, rfl⟩

/-- C4 (amended): in the vl-classifier no-reranker fallback, every returned
document carries the synthetic score `0.8`-if-HIGH-else-`0.2` plus `0.2 ×`
confidence computed from the metadata fields attached to the document itself;
those fields are attached only under the `metadata` and `both` strategies, so
under the `filter` strategy every surviving document scores `0.2` regardless
of its classification. -/
theorem c4_synthetic_score :
    ∀ cfg b docs, cfg.apiType = ApiType.vlClassifier → cfg.enableClassification = true →
      b.hasReranker = false →
      ∀ d ∈ rerankDocuments cfg b docs,
        d.rerankScore = some
          ((if d.complexityClass = some Complexity.HIGH then (8:ℚ)/10 else 2/10) +
            (d.complexityConfidence.getD 0) * (2/10)) ∧
        ((cfg.classificationStrategy = Strategy.metadata ∨
          cfg.classificationStrategy = Strategy.both) → ∃ c, d.complexityClass = some c) := by
  intro cfg b docs hapi hen hrk d hd
  unfold rerankDocuments at hd
  rw [if_pos ⟨hapi, hen⟩] at hd
  simp only [rerankVL] at hd
  rw [hrk] at hd
  split at hd
  · simp at hd
  · rw [if_neg (by simp)] at hd
    obtain ⟨d0, hd0, he1, he2, he3⟩ := mem_vlFinalize _ _ _ _ d hd
    obtain ⟨hscore, d1, hd1, hclass⟩ := vlSyntheticScore_invariant _ _ d0 hd0
    constructor
    · rw [he1, he2, he3]
      exact hscore
    · intro hstrat
      obtain ⟨c, hc⟩ := vlEnrich_attaches_class _ hstrat _ d1 hd1
      exact ⟨c, by rw [he2, hclass, hc]⟩

/-- C4 counterexample: under the `filter` strategy a document classified HIGH
with confidence 1 receives the synthetic score `0.2`, not the
`0.8 + 0.2 × 1 = 1` the claim prescribes. -/
theorem c4_counterexample :
    (rerankDocuments cfgVLFilterHigh backendClassifyHigh oneDoc).map
      (fun d => d.rerankScore.getD 0) = [1/5] ∧
    ((1:ℚ)/5) ≠ 8/10 + 1 * (2/10) := by
  constructor
  · have hs1 : (Strategy.filter = Strategy.metadata ∨ Strategy.filter = Strategy.both) =
        False := by simp
    have hs2 : ((none : Option Complexity) = some Complexity.HIGH) = False := by simp
    norm_num [rerankDocuments, cfgVLFilterHigh, backendClassifyHigh, oneDoc, rerankVL,
      vlClassify, vlFilterDocs, vlEnrich, vlSyntheticScore, vlFinalize,
      classifyDocumentComplexity, rdescDoc, List.filter_cons, List.insertionSort,
      List.orderedInsert, List.range_succ, hs1, hs2]
  · norm_num

/-- C4 witness: the amended statement evaluated under the `metadata` strategy,
where the HIGH, confidence-1 document indeed scores `0.8 + 0.2 = 1`. -/
theorem c4_synthetic_score_witness :
    vlMetadataOutputDoc.rerankScore =
      some ((if vlMetadataOutputDoc.complexityClass = some Complexity.HIGH then (8:ℚ)/10
        else 2/10) + (vlMetadataOutputDoc.complexityConfidence.getD 0) * (2/10)) ∧
    ((cfgVLMetadata.classificationStrategy = Strategy.metadata ∨
      cfgVLMetadata.classificationStrategy = Strategy.both) →
      ∃ c, vlMetadataOutputDoc.complexityClass = some c) :=
  c4_synthetic_score cfgVLMetadata backendClassifyHigh oneDoc rfl rfl rfl
    vlMetadataOutputDoc (by
      have ht : (Strategy.metadata = Strategy.metadata ∨ Strategy.metadata = Strategy.both) =
          True := by simp
      have hf : (Strategy.metadata = Strategy.filter ∨ Strategy.metadata = Strategy.both) =
          False := by simp
      have hh : ((some Complexity.HIGH : Option Complexity) = some Complexity.HIGH) = True := by
        simp
      norm_num [rerankDocuments, cfgVLMetadata, cfgVLFilterHigh, backendClassifyHigh, oneDoc,
        rerankVL, vlClassify, vlFilterDocs, vlEnrich, vlSyntheticScore, vlFinalize,
        classifyDocumentComplexity, rdescDoc, List.filter_cons, List.insertionSort,
        List.orderedInsert, List.range_succ, vlMetadataOutputDoc, Doc.mk.injEq, ht, hf, hh])

/-! ### Query validation at the node boundary -/

/-- C9: a blank (empty or all-whitespace) query makes `provider.rerank` and
the workflow node per-item execution fail with a validation error before
`rerankDocuments` is invoked, hence with zero backend HTTP calls. -/
theorem c9_empty_query_validation :
    (∀ p b input, isBlank input.query = true →
      ∃ msg, providerRerank p b input = (Except.error (NodeError.validation msg), false)) ∧
    (∀ p b query documents, isBlank query = true →
      workflowItemRerank p b query documents =
        (Except.error (NodeError.validation "Query cannot be empty"), false)) := by
  constructor
  · intro p b input hq
    by_cases h1 : input.topN.getD p.topKParam < 1
    · refine ⟨"topN/topK must be at least 1", ?_⟩
      simp only [providerRerank]
      rw [if_pos h1]
    · refine ⟨"Query cannot be empty", ?_⟩
      simp only [providerRerank]
      rw [if_neg h1, if_pos hq]
  · intro p b query documents hq
    simp only [workflowItemRerank]
    rw [if_pos hq]

/-- C9 witness: a whitespace query fails validation with no dispatch on both
entry points. -/
theorem c9_empty_query_validation_witness :
    (∃ msg, providerRerank providerParamsC9 {}
      { query := "  ", documents := [InputDoc.str "d"] } =
      (Except.error (NodeError.validation msg), false)) ∧
    workflowItemRerank providerParamsC9 {} "  " [InputDoc.str "d"] =
      (Except.error (NodeError.validation "Query cannot be empty"), false) :=
  ⟨c9_empty_query_validation.1 providerParamsC9 {} _ (by decide),
   c9_empty_query_validation.2 providerParamsC9 {} "  " [InputDoc.str "d"] (by decide)⟩

/-! ### Helper-field removal in `compressDocuments` -/

/-- C10: whenever the underlying `rerank` succeeds, `compressDocuments`
returns exactly its documents with `_rerankScore` and `_originalIndex`
removed; the removal touches no other field. -/
theorem c10_compress_strips_helpers :
    ∀ p b documents query topN ranked flag,
      providerRerank p b
        { query := query, documents := documents, topN := topN,
          threshold := some p.thresholdParam } = (Except.ok ranked, flag) →
      providerCompressDocuments p b documents query topN =
        (Except.ok (ranked.map stripHelperFields), flag) ∧
      ∀ d, (stripHelperFields d).rerankScore = none ∧
        (stripHelperFields d).originalIndex = none ∧
        (stripHelperFields d).pageContent = d.pageContent ∧
        (stripHelperFields d).metadata = d.metadata ∧
        (stripHelperFields d).originalScore = d.originalScore ∧
        (stripHelperFields d).complexityClass = d.complexityClass ∧
        (stripHelperFields d).complexityConfidence = d.complexityConfidence := by
  intro p b documents query topN ranked flag h
  constructor
  · unfold providerCompressDocuments
    rw [h]
    rfl
  · intro d
    exact ⟨rfl, rfl, rfl, rfl, rfl, rfl, rfl⟩

/-- C10 witness: `compressDocuments` on an empty document set, and the field
frame of the helper-stripping map on a concrete document. -/
theorem c10_compress_strips_helpers_witness :
    providerCompressDocuments providerParamsC10 {} [] "q" none = (Except.ok [], false) ∧
    (stripHelperFields
      { pageContent := "x", rerankScore := some 1, originalIndex := some 2 }).rerankScore =
      none :=
  ⟨(c10_compress_strips_helpers providerParamsC10 {} [] "q" none [] false rfl).1,
   ((c10_compress_strips_helpers providerParamsC10 {} [] "q" none [] false rfl).2
     { pageContent := "x", rerankScore := some 1, originalIndex := some 2 }).1⟩

end Reranker
